import Mathlib

/-!
Verification of the Dolphin presentation layer excerpt:
`Source/Core/VideoCommon/OnScreenDisplay.cpp` (on-screen message queue) and
`Source/Core/VideoCommon/Present.cpp` (display geometry engine).

The OSD message queue is embedded as a list-based model of the C++
`std::multimap<MessageType, Message>` together with the pure content of
`AddTypedMessage`, `AddMessage`, `DrawMessages` and `ClearMessages`.
Time is an explicit `Nat` millisecond clock: each message records the instant
its `Common::Timer` was started, and `ElapsedMs` is the difference.

The geometry engine's float arithmetic is modelled over `ℚ` (exact rational
arithmetic standing in for IEEE float); all integer arithmetic, including
C++ truncating division `/` and remainder `%`, is modelled with `Int.tdiv`
and `Int.tmod`.
-/

namespace Spec2Proof

namespace OSD

/-- Modelled from the spec: the `MessageType` enum of `OnScreenDisplay.h`
(the header is not part of the excerpt).  Per the spec's data model a
category is "Typeless or a specific slot id"; the multimap key order is
modelled with typed slots ordered by id and `Typeless` last. -/
inductive MessageType where
  | Typed (slot : Nat)
  | Typeless
  deriving DecidableEq

/-- Key used for the `std::multimap` strict weak order on `MessageType`. -/
def MessageType.rank : MessageType → Nat × Nat
  | .Typed n => (0, n)
  | .Typeless => (1, 0)

/-- Strict key order of the multimap. -/
def MessageType.keyLt (a b : MessageType) : Bool :=
  decide (a.rank.1 < b.rank.1 ∨ (a.rank.1 = b.rank.1 ∧ a.rank.2 < b.rank.2))

/-- The `OSD::Message` struct: text, the start instant of its `Common::Timer`
(absolute milliseconds), `duration` (u32 ms), the `ever_drawn` flag and the
packed ARGB `color`. -/
structure Message where
  text : String
  created : Nat
  duration : Nat
  ever_drawn : Bool
  color : Nat
  deriving DecidableEq

/-- The stopwatch value `timer.ElapsedMs()` at absolute time `now`. -/
def Message.elapsedMs (m : Message) (now : Nat) : Nat :=
  now - m.created

/-- The `Message::TimeRemaining` method: `duration - timer.ElapsedMs()` as a
signed 64-bit quantity (exact as `Int` for all realistic clock values). -/
def Message.timeRemaining (m : Message) (now : Nat) : Int :=
  (m.duration : Int) - (m.elapsedMs now : Int)

/-- The constant `MESSAGE_FADE_TIME` (ms to fade messages at end of life). -/
def MESSAGE_FADE_TIME : ℚ := 1000

/-- The constant `MESSAGE_DROP_TIME` (ms before an undrawn message is
dropped); the C++ float literal `5000.f` compares exactly at this range. -/
def MESSAGE_DROP_TIME : Int := 5000

/-- Removal test of the `DrawMessages` loop:
`time_left <= 0 && (msg.ever_drawn || -time_left >= MESSAGE_DROP_TIME)`. -/
def removeCond (m : Message) (now : Nat) : Bool :=
  decide (m.timeRemaining now ≤ 0) &&
    (m.ever_drawn || decide (MESSAGE_DROP_TIME ≤ -(m.timeRemaining now)))

/-- Fade window from `DrawMessage`:
`std::max(std::min(MESSAGE_FADE_TIME, (float)msg.duration), 1.f)`. -/
def fadeTime (m : Message) : ℚ :=
  max (min MESSAGE_FADE_TIME (m.duration : ℚ)) 1

/-- The C++ `std::clamp(v, lo, hi)` on rationals (requires `lo ≤ hi`). -/
def clampQ (v lo hi : ℚ) : ℚ :=
  max lo (min v hi)

/-- Alpha actually pushed by `DrawMessage`:
`msg.ever_drawn ? std::clamp(time_left / fade_time, 0.f, 1.f) : 1.0`. -/
def appliedAlpha (m : Message) (time_left : Int) : ℚ :=
  let alpha := clampQ ((time_left : ℚ) / fadeTime m) 0 1
  if m.ever_drawn then alpha else 1

/-- State change `DrawMessage` performs on its message:
`msg.ever_drawn = true`. -/
def markDrawn (m : Message) : Message :=
  { m with ever_drawn := true }

/-- The model of `s_messages : std::multimap<MessageType, Message>`: an
association list kept sorted by the key order, equal keys in insertion
order. -/
abbrev MessageMap := List (MessageType × Message)

/-- Multimap `emplace`: insert at the upper bound of the key, i.e. after all
entries whose key is not greater. -/
def mmInsert (t : MessageType) (m : Message) : MessageMap → MessageMap
  | [] => [(t, m)]
  | (t', m') :: rest =>
    if MessageType.keyLt t t' then (t, m) :: (t', m') :: rest
    else (t', m') :: mmInsert t m rest

/-- Multimap `erase(key)`: drop every entry with that key. -/
def mmErase (t : MessageType) (s : MessageMap) : MessageMap :=
  s.filter (fun p => decide (p.1 ≠ t))

/-- The `AddTypedMessage` operation: erase the category, then emplace a fresh
message whose timer starts at `now`. -/
def addTypedMessage (t : MessageType) (text : String) (ms color : Nat)
    (now : Nat) (s : MessageMap) : MessageMap :=
  mmInsert t ⟨text, now, ms, false, color⟩ (mmErase t s)

/-- The `AddMessage` operation: emplace under `Typeless`, never replacing. -/
def addMessage (text : String) (ms color : Nat) (now : Nat)
    (s : MessageMap) : MessageMap :=
  mmInsert .Typeless ⟨text, now, ms, false, color⟩ s

/-- The mutation of `s_messages` performed by one `DrawMessages()` call at
time `now` with `draw_messages = Config::Get(Config::MAIN_OSD_MESSAGES)`:
walk the map in order, erase entries passing the removal test, and call
`DrawMessage` (which sets `ever_drawn`) on every survivor when the config
flag is set. -/
def drawMessages (flag : Bool) (now : Nat) : MessageMap → MessageMap
  | [] => []
  | (t, m) :: rest =>
    if removeCond m now then drawMessages flag now rest
    else (t, if flag then markDrawn m else m) :: drawMessages flag now rest

/-- The `ClearMessages` operation. -/
def clearMessages (_ : MessageMap) : MessageMap := []

/-- Number of live entries under a given category. -/
def countKey (t : MessageType) (s : MessageMap) : Nat :=
  (s.filter (fun p => decide (p.1 = t))).length

/-- One producer/renderer operation on the shared message map. -/
inductive Op where
  | addTyped (t : MessageType) (text : String) (ms color : Nat)
  | add (text : String) (ms color : Nat)
  | draw (flag : Bool)
  | clear

/-- Effect of one operation executed at absolute time `now`. -/
def step (s : MessageMap) (now : Nat) : Op → MessageMap
  | .addTyped t text ms color => addTypedMessage t text ms color now s
  | .add text ms color => addMessage text ms color now s
  | .draw flag => drawMessages flag now s
  | .clear => clearMessages s

/-- Run a chronological list of timestamped operations from the empty map. -/
def run (ops : List (Nat × Op)) : MessageMap :=
  ops.foldl (fun s p => step s p.1 p.2) []

/-- The invariant of the spec's data model: at most one live message per
non-Typeless category. -/
def atMostOnePerCategory (s : MessageMap) : Prop :=
  ∀ C : MessageType, C ≠ MessageType.Typeless → countKey C s ≤ 1

end OSD

namespace VC

/-- Modelled from the spec: the aspect-mode selector of `VideoConfig.h` (the
header is not part of the excerpt); the code reads the `Stretch`,
`AnalogWide` and `Auto` enumerators, `Analog` stands for the remaining
standard-aspect mode. -/
inductive AspectMode where
  | Auto
  | AnalogWide
  | Analog
  | Stretch
  deriving DecidableEq

/-- Modelled from the spec: the stereo-mode selector (none / side-by-side /
top-and-bottom / quad-buffer). -/
inductive StereoMode where
  | Off
  | SBS
  | TAB
  | QuadBuffer
  deriving DecidableEq

/-- The fields of `g_ActiveConfig` read by the geometry engine. -/
structure VideoConfig where
  aspect_mode : AspectMode
  bCrop : Bool
  stereo_mode : StereoMode
  bWidescreenHack : Bool
  deriving DecidableEq

/-- External collaborators read by the geometry engine:
`VideoInterface::GetAspectRatio()` and `g_renderer->IsGameWidescreen()`. -/
structure AspectEnv where
  sourceAspect : ℚ
  isGameWidescreen : Bool

/-- The helper `AspectToWidescreen`: widen an aspect ratio by
`(16/9)/(4/3)`. -/
def AspectToWidescreen (aspect : ℚ) : ℚ :=
  aspect * ((16 / 9) / (4 / 3))

/-- The `MathUtil::Rectangle<int>` type with its field order
`(left, top, right, bottom)`. -/
structure Rect where
  left : Int
  top : Int
  right : Int
  bottom : Int
  deriving DecidableEq

/-- `Rectangle::GetWidth`. -/
def Rect.GetWidth (r : Rect) : Int := r.right - r.left

/-- `Rectangle::GetHeight`. -/
def Rect.GetHeight (r : Rect) : Int := r.bottom - r.top

/-- `Presenter::CalculateDrawAspectRatio`: window aspect under `Stretch`,
otherwise the source aspect ratio, widened to 16:9 under `AnalogWide` or
(`Auto` and natively widescreen content). -/
def CalculateDrawAspectRatio (cfg : VideoConfig) (env : AspectEnv)
    (bb_w bb_h : Int) : ℚ :=
  if cfg.aspect_mode = AspectMode.Stretch then (bb_w : ℚ) / (bb_h : ℚ)
  else if cfg.aspect_mode = AspectMode.AnalogWide ∨
      (cfg.aspect_mode = AspectMode.Auto ∧ env.isGameWidescreen = true) then
    AspectToWidescreen env.sourceAspect
  else env.sourceAspect

/-- `Presenter::ApplyStandardAspectCrop`: crop to exactly 16:9 or 4:3 when
cropping is enabled and the mode is not `Stretch`, shrinking whichever axis
overshoots the expected ratio. -/
def ApplyStandardAspectCrop (cfg : VideoConfig) (env : AspectEnv)
    (width height : ℚ) : ℚ × ℚ :=
  if ¬cfg.bCrop = true ∨ cfg.aspect_mode = AspectMode.Stretch then
    (width, height)
  else
    let current_aspect := width / height
    let expected_aspect :=
      if cfg.aspect_mode = AspectMode.AnalogWide ∨
          (cfg.aspect_mode = AspectMode.Auto ∧ env.isGameWidescreen = true) then
        (16 / 9 : ℚ)
      else (4 / 3 : ℚ)
    if current_aspect > expected_aspect then (height * expected_aspect, height)
    else (width, width / expected_aspect)

/-- `Presenter::ScaleToDisplayAspectRatio`: scale either the width or the
height up to match the current draw aspect ratio. -/
def ScaleToDisplayAspectRatio (cfg : VideoConfig) (env : AspectEnv)
    (bb_w bb_h : Int) (width height : Int) : ℚ × ℚ :=
  let scaled_width : ℚ := (width : ℚ)
  let scaled_height : ℚ := (height : ℚ)
  let draw_aspect := CalculateDrawAspectRatio cfg env bb_w bb_h
  if scaled_width / scaled_height ≥ draw_aspect then
    (scaled_width, scaled_width / draw_aspect)
  else (scaled_height * draw_aspect, scaled_height)

/-- `Presenter::CalculateOutputDimensions`: clamp the request to ≥ 1, scale
to the draw aspect ratio, apply the standard crop, take ceilings and round
each down to a multiple of 4 with C++ truncating `%`.  The C++ method is
`const`: the model returns only the dimensions and touches no state. -/
def CalculateOutputDimensions (cfg : VideoConfig) (env : AspectEnv)
    (bb_w bb_h : Int) (width height : Int) : Int × Int :=
  let width := max width 1
  let height := max height 1
  let scaled := ScaleToDisplayAspectRatio cfg env bb_w bb_h width height
  let cropped := ApplyStandardAspectCrop cfg env scaled.1 scaled.2
  let w : Int := ⌈cropped.1⌉
  let h : Int := ⌈cropped.2⌉
  (w - w.tmod 4, h - h.tmod 4)

/-- `Presenter::AdjustRectanglesToFitBounds` (the spec's
`ClampRectanglesToBounds`): clamp each side of the target rectangle to
`[0, fb_width] x [0, fb_height]`, moving the corresponding source side by
`offset * original_source_extent / original_target_extent` with the
pre-clamp extents captured up front; sides are processed in the order
left, right, top, bottom. -/
def AdjustRectanglesToFitBounds (target source : Rect)
    (fb_width fb_height : Int) : Rect × Rect :=
  let orig_target_width := target.GetWidth
  let orig_target_height := target.GetHeight
  let orig_source_width := source.GetWidth
  let orig_source_height := source.GetHeight
  let t1 := if target.left < 0 then { target with left := 0 } else target
  let s1 :=
    if target.left < 0 then
      { source with left :=
          source.left + ((-target.left) * orig_source_width).tdiv orig_target_width }
    else source
  let t2 :=
    if t1.right > fb_width then
      { t1 with right := t1.right - (t1.right - fb_width) }
    else t1
  let s2 :=
    if t1.right > fb_width then
      { s1 with right :=
          s1.right - ((t1.right - fb_width) * orig_source_width).tdiv orig_target_width }
    else s1
  let t3 := if t2.top < 0 then { t2 with top := 0 } else t2
  let s3 :=
    if t2.top < 0 then
      { s2 with top :=
          s2.top + ((-t2.top) * orig_source_height).tdiv orig_target_height }
    else s2
  let t4 :=
    if t3.bottom > fb_height then
      { t3 with bottom := t3.bottom - (t3.bottom - fb_height) }
    else t3
  let s4 :=
    if t3.bottom > fb_height then
      { s3 with bottom :=
          s3.bottom - ((t3.bottom - fb_height) * orig_source_height).tdiv orig_target_height }
    else s3
  (t4, s4)

/-- `Presenter::ConvertStereoRectangle` (the spec's `ComputeStereoSplit`):
move each boundary of the split axis inward by a quarter of the extent,
then offset the two copies by ∓(backbuffer dimension / 4); the `TAB` test
picks the vertical axis, every other mode the horizontal one. -/
def ConvertStereoRectangle (mode : StereoMode) (bb_w bb_h : Int)
    (rc : Rect) : Rect × Rect :=
  let draw_rc :=
    if mode = StereoMode.TAB then
      let height := rc.bottom - rc.top
      { rc with top := rc.top + height.tdiv 4, bottom := rc.bottom - height.tdiv 4 }
    else
      let width := rc.right - rc.left
      { rc with left := rc.left + width.tdiv 4, right := rc.right - width.tdiv 4 }
  if mode = StereoMode.TAB then
    ({ draw_rc with top := draw_rc.top - bb_h.tdiv 4, bottom := draw_rc.bottom - bb_h.tdiv 4 },
     { draw_rc with top := draw_rc.top + bb_h.tdiv 4, bottom := draw_rc.bottom + bb_h.tdiv 4 })
  else
    ({ draw_rc with left := draw_rc.left - bb_w.tdiv 4, right := draw_rc.right - bb_w.tdiv 4 },
     { draw_rc with left := draw_rc.left + bb_w.tdiv 4, right := draw_rc.right + bb_w.tdiv 4 })

/-- Steps 1-4 of `Presenter::UpdateDrawRectangle`: the draw dimensions after
aspect selection, standard crop and scaling to fill the backbuffer, before
the multiple-of-4 rounding (the float values of `draw_width`/`draw_height`
at line 346). -/
def UpdateDrawRectangleDims (cfg : VideoConfig) (env : AspectEnv)
    (bb_w bb_h : Int) : ℚ × ℚ :=
  let draw_aspect_ratio := CalculateDrawAspectRatio cfg env bb_w bb_h
  let win_width : ℚ := (bb_w : ℚ)
  let win_height : ℚ := (bb_h : ℚ)
  let draw_width := draw_aspect_ratio
  let draw_height : ℚ := 1
  let cropped := ApplyStandardAspectCrop cfg env draw_width draw_height
  if win_width / win_height ≥ cropped.1 / cropped.2 then
    (draw_width * (win_height / cropped.2), draw_height * (win_height / cropped.2))
  else
    (draw_width * (win_width / cropped.1), draw_height * (win_width / cropped.1))

/-- The C++ `std::round`: round half away from zero. -/
def roundNearest (x : ℚ) : Int :=
  if x < 0 then ⌈x - 1 / 2⌉ else ⌊x + 1 / 2⌋

/-- The target rectangle produced by `Presenter::UpdateDrawRectangle`:
dimensions taken to `ceil(d) - int(ceil(d)) % 4`, then centered in the
backbuffer with `std::round(win/2 - dim/2)`. -/
def UpdateDrawRectangle (cfg : VideoConfig) (env : AspectEnv)
    (bb_w bb_h : Int) : Rect :=
  let dims := UpdateDrawRectangleDims cfg env bb_w bb_h
  let cw : Int := ⌈dims.1⌉
  let ch : Int := ⌈dims.2⌉
  let draw_width : Int := cw - cw.tmod 4
  let draw_height : Int := ch - ch.tmod 4
  let left := roundNearest ((bb_w : ℚ) / 2 - (draw_width : ℚ) / 2)
  let top := roundNearest ((bb_h : ℚ) / 2 - (draw_height : ℚ) / 2)
  ⟨left, top, left + draw_width, top + draw_height⟩

end VC

namespace OSD

theorem removeCond_iff (m : Message) (now : Nat) :
    removeCond m now = true ↔
      (m.timeRemaining now ≤ 0 ∧
        (m.ever_drawn = true ∨ MESSAGE_DROP_TIME ≤ -(m.timeRemaining now))) := by
  simp [removeCond]

theorem countKey_cons (C t : MessageType) (m : Message) (s : MessageMap) :
    countKey C ((t, m) :: s) = (if t = C then 1 else 0) + countKey C s := by
  by_cases h : t = C
  · simp [countKey, List.filter_cons, h]
    omega
  · simp [countKey, List.filter_cons, h]

theorem countKey_mmInsert (C t : MessageType) (m : Message) (s : MessageMap) :
    countKey C (mmInsert t m s) = (if t = C then 1 else 0) + countKey C s := by
  induction s with
  | nil => by_cases h : t = C <;> simp [mmInsert, countKey, h]
  | cons hd tl ih =>
    obtain ⟨t', m'⟩ := hd
    by_cases hlt : MessageType.keyLt t t'
    · simp [mmInsert, hlt, countKey_cons]
    · simp only [mmInsert, hlt, if_false, Bool.false_eq_true, countKey_cons, ih]
      omega

theorem filterKey_mmErase_self (t : MessageType) (s : MessageMap) :
    (mmErase t s).filter (fun p => decide (p.1 = t)) = [] := by
  simp only [mmErase]
  induction s with
  | nil => rfl
  | cons hd tl ih =>
    by_cases h : hd.1 = t <;> simp [List.filter_cons, h, ih]

theorem countKey_mmErase_self (t : MessageType) (s : MessageMap) :
    countKey t (mmErase t s) = 0 := by
  have := filterKey_mmErase_self t s
  simp only [countKey, mmErase] at this ⊢
  simp [this]

theorem countKey_mmErase_le (C t : MessageType) (s : MessageMap) :
    countKey C (mmErase t s) ≤ countKey C s := by
  simp only [countKey, mmErase]
  exact List.Sublist.length_le (List.Sublist.filter _ (List.filter_sublist s))

theorem countKey_drawMessages_le (flag : Bool) (now : Nat) (C : MessageType)
    (s : MessageMap) : countKey C (drawMessages flag now s) ≤ countKey C s := by
  induction s with
  | nil => simp [drawMessages]
  | cons hd tl ih =>
    obtain ⟨t, m⟩ := hd
    by_cases h : removeCond m now = true
    · simp only [drawMessages, h, if_true, countKey_cons]
      omega
    · simp only [drawMessages, h, if_false, Bool.false_eq_true, countKey_cons]
      omega

theorem atMostOne_step (s : MessageMap) (now : Nat) (op : Op)
    (h : atMostOnePerCategory s) : atMostOnePerCategory (step s now op) := by
  intro C hC
  cases op with
  | addTyped t text ms color =>
    simp only [step, addTypedMessage, countKey_mmInsert]
    by_cases ht : t = C
    · subst ht
      simp [countKey_mmErase_self]
    · have hle := countKey_mmErase_le C t s
      have := h C hC
      simp only [ht, if_false]
      omega
  | add text ms color =>
    have hT : ¬(MessageType.Typeless = C) := fun hh => hC hh.symm
    simp only [step, addMessage, countKey_mmInsert, if_neg hT, Nat.zero_add]
    exact h C hC
  | draw flag =>
    exact le_trans (countKey_drawMessages_le flag now C s) (h C hC)
  | clear =>
    simp [step, clearMessages, countKey]

theorem atMostOne_run (ops : List (Nat × Op)) :
    atMostOnePerCategory (run ops) := by
  have main : ∀ (l : List (Nat × Op)) (s : MessageMap), atMostOnePerCategory s →
      atMostOnePerCategory (l.foldl (fun s p => step s p.1 p.2) s) := by
    intro l
    induction l with
    | nil => intro s hs; exact hs
    | cons hd tl ih =>
      intro s hs
      exact ih _ (atMostOne_step s hd.1 hd.2 hs)
  exact main ops [] (fun C _ => by simp [countKey])

theorem countKey_addMessage_typeless (x : String) (d c n : Nat)
    (s : MessageMap) :
    countKey MessageType.Typeless (addMessage x d c n s) =
      countKey MessageType.Typeless s + 1 := by
  simp [addMessage, countKey_mmInsert]
  omega

theorem mem_mmInsert (t : MessageType) (m : Message) (s : MessageMap) :
    ∀ p ∈ s, p ∈ mmInsert t m s := by
  induction s with
  | nil => intro p hp; simp at hp
  | cons hd tl ih =>
    intro p hp
    obtain ⟨t', m'⟩ := hd
    by_cases hlt : MessageType.keyLt t t'
    · simp only [mmInsert, hlt, if_true]
      exact List.mem_cons_of_mem _ hp
    · simp only [mmInsert, hlt, if_false, Bool.false_eq_true]
      rcases List.mem_cons.mp hp with heq | htl
      · exact heq ▸ List.mem_cons_self _ _
      · exact List.mem_cons_of_mem _ (ih p htl)

theorem countKey_run_replicate_add (k : Nat) :
    countKey MessageType.Typeless
      (run (List.replicate k (0, Op.add "" 0 0))) = k := by
  have main : ∀ (j : Nat) (s : MessageMap),
      countKey MessageType.Typeless
        ((List.replicate j ((0 : Nat), Op.add "" 0 0)).foldl
          (fun s p => step s p.1 p.2) s) =
        countKey MessageType.Typeless s + j := by
    intro j
    induction j with
    | zero => intro s; simp
    | succ j ih =>
      intro s
      rw [List.replicate_succ, List.foldl_cons, ih]
      simp only [step, countKey_addMessage_typeless]
      omega
  simpa [run, countKey] using main k []

theorem filterKey_mmInsert_self (t : MessageType) (m : Message) (s : MessageMap)
    (h : s.filter (fun p => decide (p.1 = t)) = []) :
    (mmInsert t m s).filter (fun p => decide (p.1 = t)) = [(t, m)] := by
  induction s with
  | nil => simp [mmInsert]
  | cons hd tl ih =>
    obtain ⟨t', m'⟩ := hd
    have hne : ¬(t' = t) := by
      intro hh
      simp [List.filter_cons, hh] at h
    have htl : tl.filter (fun p => decide (p.1 = t)) = [] := by
      simpa [List.filter_cons, hne] using h
    by_cases hlt : MessageType.keyLt t t'
    · simp [mmInsert, hlt, List.filter_cons, hne, htl]
    · simp [mmInsert, hlt, List.filter_cons, hne, ih htl]

end OSD

/-- C1: a `DrawMessages` call removes exactly the live messages whose
remaining time is ≤ 0 and that have either been drawn at least once or are
at least `MESSAGE_DROP_TIME = 5000` ms past expiry; every other message
survives the call (drawn, hence marked, when the OSD flag is on). -/
theorem c1_drawMessages_removal_rule (flag : Bool) (now : Nat)
    (s : OSD.MessageMap) :
    OSD.drawMessages flag now s =
      (s.filter fun p =>
          decide ¬(p.2.timeRemaining now ≤ 0 ∧
            (p.2.ever_drawn = true ∨ 5000 ≤ -(p.2.timeRemaining now)))).map
        (fun p => (p.1, if flag then OSD.markDrawn p.2 else p.2)) := by
  induction s with
  | nil => rfl
  | cons hd tl ih =>
    obtain ⟨t, m⟩ := hd
    by_cases h : OSD.removeCond m now = true
    · have hc := (OSD.removeCond_iff m now).mp h
      simp only [OSD.MESSAGE_DROP_TIME] at hc
      simp only [OSD.drawMessages, h, if_true, List.filter_cons,
        decide_eq_false (not_not_intro hc), Bool.false_eq_true, if_false, ih]
    · have hc : ¬(m.timeRemaining now ≤ 0 ∧
          (m.ever_drawn = true ∨ (5000 : Int) ≤ -(m.timeRemaining now))) := by
        intro hC
        exact h ((OSD.removeCond_iff m now).mpr (by simpa [OSD.MESSAGE_DROP_TIME] using hC))
      simp only [OSD.drawMessages, h, if_false, Bool.false_eq_true, List.filter_cons,
        decide_eq_true hc, if_true, List.map_cons, ih]

/-- C2: in every reachable state there is at most one live message per
non-Typeless category, and after two `AddTypedMessage` calls on the same
category only the second message is live for that category; Typeless
messages added via `AddMessage` coexist without bound: each `AddMessage`
call increments the Typeless count by exactly one and preserves every
existing entry (it never replaces), and every Typeless count is reached by
some trace. -/
theorem c2_one_message_per_category :
    (∀ (ops : List (Nat × OSD.Op)) (C : OSD.MessageType),
      C ≠ OSD.MessageType.Typeless → OSD.countKey C (OSD.run ops) ≤ 1) ∧
    (∀ (C : OSD.MessageType) (s : OSD.MessageMap)
      (x1 : String) (d1 c1 n1 : Nat) (x2 : String) (d2 c2 n2 : Nat),
      (OSD.addTypedMessage C x2 d2 c2 n2
          (OSD.addTypedMessage C x1 d1 c1 n1 s)).filter
          (fun p => decide (p.1 = C)) = [(C, ⟨x2, n2, d2, false, c2⟩)]) ∧
    (∀ (x : String) (d c n : Nat) (s : OSD.MessageMap),
      OSD.countKey OSD.MessageType.Typeless (OSD.addMessage x d c n s) =
        OSD.countKey OSD.MessageType.Typeless s + 1 ∧
      ∀ p ∈ s, p ∈ OSD.addMessage x d c n s) ∧
    (∀ k : Nat, ∃ ops : List (Nat × OSD.Op),
      OSD.countKey OSD.MessageType.Typeless (OSD.run ops) = k) := by
  refine ⟨?_, ?_, ?_, ?_⟩
  · intro ops C hC
    exact OSD.atMostOne_run ops C hC
  · intro C s x1 d1 c1 n1 x2 d2 c2 n2
    exact OSD.filterKey_mmInsert_self C _ _ (OSD.filterKey_mmErase_self C _)
  · intro x d c n s
    exact ⟨OSD.countKey_addMessage_typeless x d c n s,
      OSD.mem_mmInsert OSD.MessageType.Typeless _ s⟩
  · intro k
    exact ⟨List.replicate k (0, OSD.Op.add "" 0 0),
      OSD.countKey_run_replicate_add k⟩

/-- C2 witness: the invariant, the replacement property and the
never-replacing `AddMessage` increment evaluated on concrete states. -/
theorem c2_one_message_per_category_witness :
    OSD.countKey (OSD.MessageType.Typed 0)
      (OSD.run [(0, OSD.Op.addTyped (OSD.MessageType.Typed 0) "a" 100 1),
                (5, OSD.Op.addTyped (OSD.MessageType.Typed 0) "b" 200 2)]) ≤ 1 ∧
    (OSD.addTypedMessage (OSD.MessageType.Typed 0) "b" 200 2 5
        (OSD.addTypedMessage (OSD.MessageType.Typed 0) "a" 100 1 0 [])).filter
        (fun p => decide (p.1 = OSD.MessageType.Typed 0)) =
      [(OSD.MessageType.Typed 0, ⟨"b", 5, 200, false, 2⟩)] ∧
    OSD.countKey OSD.MessageType.Typeless
        (OSD.addMessage "c" 10 3 7
          [(OSD.MessageType.Typeless, ⟨"b", 5, 200, false, 2⟩)]) =
      OSD.countKey OSD.MessageType.Typeless
        [(OSD.MessageType.Typeless, (⟨"b", 5, 200, false, 2⟩ : OSD.Message))] + 1 :=
  ⟨c2_one_message_per_category.1 _ _ (by decide),
   c2_one_message_per_category.2.1 (OSD.MessageType.Typed 0) [] "a" 100 1 0 "b" 200 2 5,
   (c2_one_message_per_category.2.2.1 "c" 10 3 7
     [(OSD.MessageType.Typeless, ⟨"b", 5, 200, false, 2⟩)]).1⟩

namespace VC

theorem roundDown4_dvd (x : Int) : 4 ∣ x - x.tmod 4 :=
  ⟨x.tdiv 4, by have h := Int.tdiv_add_tmod x 4; omega⟩

theorem roundDown4_nonneg {x : Int} (hx : 0 ≤ x) : 0 ≤ x - x.tmod 4 := by
  have h := Int.tdiv_add_tmod x 4
  have h2 : 0 ≤ x.tdiv 4 := Int.tdiv_nonneg hx (by norm_num)
  omega

theorem roundDown4_le {x : Int} (hx : 0 ≤ x) : x - x.tmod 4 ≤ x := by
  have h2 := Int.tmod_nonneg 4 hx
  omega

theorem auto_ne_stretch : ¬(AspectMode.Auto = AspectMode.Stretch) := by decide

theorem auto_ne_analogwide : ¬(AspectMode.Auto = AspectMode.AnalogWide) := by decide

theorem crop_pos (cfg : VideoConfig) (env : AspectEnv) {w h : ℚ}
    (hw : 0 < w) (hh : 0 < h) :
    0 < (ApplyStandardAspectCrop cfg env w h).1 ∧
    0 < (ApplyStandardAspectCrop cfg env w h).2 := by
  unfold ApplyStandardAspectCrop
  split
  · exact ⟨hw, hh⟩
  · dsimp only
    split <;> split <;>
      first
      | exact ⟨mul_pos hh (by norm_num), hh⟩
      | exact ⟨hw, div_pos hw (by norm_num)⟩

theorem scale_bounds (cfg : VideoConfig) (env : AspectEnv) (bb_w bb_h : Int)
    {w h : Int} (hw : 0 < w) (hh : 0 < h)
    (hda : 0 < CalculateDrawAspectRatio cfg env bb_w bb_h) :
    (w : ℚ) ≤ (ScaleToDisplayAspectRatio cfg env bb_w bb_h w h).1 ∧
    (h : ℚ) ≤ (ScaleToDisplayAspectRatio cfg env bb_w bb_h w h).2 ∧
    0 < (ScaleToDisplayAspectRatio cfg env bb_w bb_h w h).1 ∧
    0 < (ScaleToDisplayAspectRatio cfg env bb_w bb_h w h).2 := by
  have hwQ : (0 : ℚ) < (w : ℚ) := by exact_mod_cast hw
  have hhQ : (0 : ℚ) < (h : ℚ) := by exact_mod_cast hh
  unfold ScaleToDisplayAspectRatio
  dsimp only
  split
  next hge =>
    refine ⟨le_refl _, ?_, hwQ, div_pos hwQ hda⟩
    rw [le_div_iff₀ hda]
    calc (h : ℚ) * CalculateDrawAspectRatio cfg env bb_w bb_h
        = CalculateDrawAspectRatio cfg env bb_w bb_h * (h : ℚ) := mul_comm _ _
      _ ≤ (w : ℚ) := (le_div_iff₀ hhQ).mp hge
  next hlt =>
    have hlt' : (w : ℚ) / (h : ℚ) < CalculateDrawAspectRatio cfg env bb_w bb_h :=
      not_le.mp hlt
    refine ⟨?_, le_refl _, mul_pos hhQ hda, hhQ⟩
    calc (w : ℚ) ≤ CalculateDrawAspectRatio cfg env bb_w bb_h * (h : ℚ) :=
        le_of_lt ((div_lt_iff₀ hhQ).mp hlt')
      _ = (h : ℚ) * CalculateDrawAspectRatio cfg env bb_w bb_h := mul_comm _ _

theorem CalculateOutputDimensions_eq (cfg : VideoConfig) (env : AspectEnv)
    (bb_w bb_h width height : Int) :
    CalculateOutputDimensions cfg env bb_w bb_h width height =
      (⌈(ApplyStandardAspectCrop cfg env
            (ScaleToDisplayAspectRatio cfg env bb_w bb_h (max width 1) (max height 1)).1
            (ScaleToDisplayAspectRatio cfg env bb_w bb_h (max width 1) (max height 1)).2).1⌉ -
          (⌈(ApplyStandardAspectCrop cfg env
            (ScaleToDisplayAspectRatio cfg env bb_w bb_h (max width 1) (max height 1)).1
            (ScaleToDisplayAspectRatio cfg env bb_w bb_h (max width 1) (max height 1)).2).1⌉).tmod 4,
       ⌈(ApplyStandardAspectCrop cfg env
            (ScaleToDisplayAspectRatio cfg env bb_w bb_h (max width 1) (max height 1)).1
            (ScaleToDisplayAspectRatio cfg env bb_w bb_h (max width 1) (max height 1)).2).2⌉ -
          (⌈(ApplyStandardAspectCrop cfg env
            (ScaleToDisplayAspectRatio cfg env bb_w bb_h (max width 1) (max height 1)).1
            (ScaleToDisplayAspectRatio cfg env bb_w bb_h (max width 1) (max height 1)).2).2⌉).tmod 4) :=
  rfl

end VC

/-- C3: `CalculateOutputDimensions` clamps both requested dimensions to ≥ 1
(the output is invariant under that clamping), scales to the current draw
aspect ratio by growing whichever axis is short (each scaled axis is at
least the clamped input), applies the standard-aspect crop, and returns two
dimensions that are each a multiple of 4 and ≥ 0; the `const` method
mutates no presenter state (the model is a pure function of its inputs). -/
theorem c3_output_dimensions_valid (cfg : VC.VideoConfig) (env : VC.AspectEnv)
    (bb_w bb_h width height : Int)
    (hda : 0 < VC.CalculateDrawAspectRatio cfg env bb_w bb_h) :
    4 ∣ (VC.CalculateOutputDimensions cfg env bb_w bb_h width height).1 ∧
    4 ∣ (VC.CalculateOutputDimensions cfg env bb_w bb_h width height).2 ∧
    0 ≤ (VC.CalculateOutputDimensions cfg env bb_w bb_h width height).1 ∧
    0 ≤ (VC.CalculateOutputDimensions cfg env bb_w bb_h width height).2 ∧
    ((max width 1 : Int) : ℚ) ≤
      (VC.ScaleToDisplayAspectRatio cfg env bb_w bb_h (max width 1) (max height 1)).1 ∧
    ((max height 1 : Int) : ℚ) ≤
      (VC.ScaleToDisplayAspectRatio cfg env bb_w bb_h (max width 1) (max height 1)).2 ∧
    VC.CalculateOutputDimensions cfg env bb_w bb_h width height =
      VC.CalculateOutputDimensions cfg env bb_w bb_h (max width 1) (max height 1) := by
  have hw : (0 : Int) < max width 1 := lt_of_lt_of_le one_pos (le_max_right _ _)
  have hh : (0 : Int) < max height 1 := lt_of_lt_of_le one_pos (le_max_right _ _)
  obtain ⟨hs1, hs2, hs3, hs4⟩ := VC.scale_bounds cfg env bb_w bb_h hw hh hda
  obtain ⟨hc1, hc2⟩ := VC.crop_pos cfg env hs3 hs4
  have hx1 : (0 : Int) ≤ ⌈(VC.ApplyStandardAspectCrop cfg env
      (VC.ScaleToDisplayAspectRatio cfg env bb_w bb_h (max width 1) (max height 1)).1
      (VC.ScaleToDisplayAspectRatio cfg env bb_w bb_h (max width 1) (max height 1)).2).1⌉ :=
    le_of_lt (Int.ceil_pos.mpr hc1)
  have hx2 : (0 : Int) ≤ ⌈(VC.ApplyStandardAspectCrop cfg env
      (VC.ScaleToDisplayAspectRatio cfg env bb_w bb_h (max width 1) (max height 1)).1
      (VC.ScaleToDisplayAspectRatio cfg env bb_w bb_h (max width 1) (max height 1)).2).2⌉ :=
    le_of_lt (Int.ceil_pos.mpr hc2)
  have hmw : max (max width 1) 1 = max width 1 := max_eq_left (le_max_right _ _)
  have hmh : max (max height 1) 1 = max height 1 := max_eq_left (le_max_right _ _)
  refine ⟨?_, ?_, ?_, ?_, hs1, hs2, ?_⟩
  · rw [VC.CalculateOutputDimensions_eq]
    exact VC.roundDown4_dvd _
  · rw [VC.CalculateOutputDimensions_eq]
    exact VC.roundDown4_dvd _
  · rw [VC.CalculateOutputDimensions_eq]
    exact VC.roundDown4_nonneg hx1
  · rw [VC.CalculateOutputDimensions_eq]
    exact VC.roundDown4_nonneg hx2
  · rw [VC.CalculateOutputDimensions_eq cfg env bb_w bb_h width height,
      VC.CalculateOutputDimensions_eq cfg env bb_w bb_h (max width 1) (max height 1),
      hmw, hmh]

/-- C3 witness: the guarantees evaluated for a 123x45 request with source
aspect 4/3 (top-left conjuncts of the theorem), plus the concrete output
(120, 92). -/
theorem c3_output_dimensions_valid_witness :
    4 ∣ (VC.CalculateOutputDimensions ⟨VC.AspectMode.Auto, false, VC.StereoMode.Off, false⟩
        ⟨4 / 3, false⟩ 0 0 123 45).1 ∧
    0 ≤ (VC.CalculateOutputDimensions ⟨VC.AspectMode.Auto, false, VC.StereoMode.Off, false⟩
        ⟨4 / 3, false⟩ 0 0 123 45).2 := by
  have hda : (0 : ℚ) < VC.CalculateDrawAspectRatio
      ⟨VC.AspectMode.Auto, false, VC.StereoMode.Off, false⟩ ⟨4 / 3, false⟩ 0 0 := by
    norm_num [VC.CalculateDrawAspectRatio, VC.auto_ne_stretch, VC.auto_ne_analogwide]
  have h := c3_output_dimensions_valid ⟨VC.AspectMode.Auto, false, VC.StereoMode.Off, false⟩
    ⟨4 / 3, false⟩ 0 0 123 45 hda
  exact ⟨h.1, h.2.2.2.1⟩

/-- C4: `AdjustRectanglesToFitBounds` clamps each of the four target sides
to the framebuffer bounds independently, moving the matching source side by
`offset * original_source_extent / original_target_extent` with the
pre-clamp extents as denominators; including the spec's concrete instance
target {-10,0,100,50}, source {0,0,110,50}, bounds 200x200. -/
theorem c4_clamp_rectangles_to_bounds (target source : VC.Rect)
    (fb_width fb_height : Int) :
    (VC.AdjustRectanglesToFitBounds target source fb_width fb_height =
      (⟨if target.left < 0 then 0 else target.left,
        if target.top < 0 then 0 else target.top,
        if target.right > fb_width then fb_width else target.right,
        if target.bottom > fb_height then fb_height else target.bottom⟩,
       ⟨if target.left < 0 then
          source.left + ((-target.left) * source.GetWidth).tdiv target.GetWidth
        else source.left,
        if target.top < 0 then
          source.top + ((-target.top) * source.GetHeight).tdiv target.GetHeight
        else source.top,
        if target.right > fb_width then
          source.right - ((target.right - fb_width) * source.GetWidth).tdiv target.GetWidth
        else source.right,
        if target.bottom > fb_height then
          source.bottom - ((target.bottom - fb_height) * source.GetHeight).tdiv target.GetHeight
        else source.bottom⟩)) ∧
    VC.AdjustRectanglesToFitBounds ⟨-10, 0, 100, 50⟩ ⟨0, 0, 110, 50⟩ 200 200 =
      (⟨0, 0, 100, 50⟩, ⟨10, 0, 110, 50⟩) := by
  refine ⟨?_, by decide⟩
  by_cases h1 : target.left < 0 <;> by_cases h2 : target.right > fb_width <;>
    by_cases h3 : target.top < 0 <;> by_cases h4 : target.bottom > fb_height <;>
    simp [VC.AdjustRectanglesToFitBounds, VC.Rect.GetWidth, VC.Rect.GetHeight,
      h1, h2, h3, h4, sub_sub_cancel]

/-- C5: in TAB (resp. SBS) stereo mode `ConvertStereoRectangle` moves each
boundary of the vertical (resp. horizontal) axis inward by a quarter of the
rectangle's extent on that axis and returns the two copies offset by minus
and plus backbuffer-dimension / 4 on that axis; including the spec's
concrete TAB instance with backbuffer height 400 and input {0,0,640,400}. -/
theorem c5_stereo_split (bb_w bb_h : Int) (rc : VC.Rect) :
    (VC.ConvertStereoRectangle VC.StereoMode.TAB bb_w bb_h rc =
      (⟨rc.left, rc.top + rc.GetHeight.tdiv 4 - bb_h.tdiv 4, rc.right,
        rc.bottom - rc.GetHeight.tdiv 4 - bb_h.tdiv 4⟩,
       ⟨rc.left, rc.top + rc.GetHeight.tdiv 4 + bb_h.tdiv 4, rc.right,
        rc.bottom - rc.GetHeight.tdiv 4 + bb_h.tdiv 4⟩)) ∧
    (VC.ConvertStereoRectangle VC.StereoMode.SBS bb_w bb_h rc =
      (⟨rc.left + rc.GetWidth.tdiv 4 - bb_w.tdiv 4, rc.top,
        rc.right - rc.GetWidth.tdiv 4 - bb_w.tdiv 4, rc.bottom⟩,
       ⟨rc.left + rc.GetWidth.tdiv 4 + bb_w.tdiv 4, rc.top,
        rc.right - rc.GetWidth.tdiv 4 + bb_w.tdiv 4, rc.bottom⟩)) ∧
    VC.ConvertStereoRectangle VC.StereoMode.TAB 640 400 ⟨0, 0, 640, 400⟩ =
      (⟨0, 0, 640, 200⟩, ⟨0, 200, 640, 400⟩) := by
  refine ⟨?_, ?_, by decide⟩ <;>
    simp [VC.ConvertStereoRectangle, VC.Rect.GetWidth, VC.Rect.GetHeight]

/-- C6 counterexample: with source aspect 31/4, backbuffer 8x1, no crop and
no stretch, the pre-rounding draw width is 31/4 = 7.75 but the final draw
width is 8, a multiple of 4 that EXCEEDS the unrounded value (the code
rounds the ceiling down to a multiple of 4, ceil(7.75) = 8 is already one,
so nothing is subtracted). -/
theorem c6_rounding_counterexample :
    (VC.UpdateDrawRectangleDims ⟨VC.AspectMode.Auto, false, VC.StereoMode.Off, false⟩
        ⟨31 / 4, false⟩ 8 1).1 = 31 / 4 ∧
    (VC.UpdateDrawRectangle ⟨VC.AspectMode.Auto, false, VC.StereoMode.Off, false⟩
        ⟨31 / 4, false⟩ 8 1).GetWidth = 8 ∧
    ¬((8 : ℚ) ≤ 31 / 4) := by
  have hdims : VC.UpdateDrawRectangleDims
      ⟨VC.AspectMode.Auto, false, VC.StereoMode.Off, false⟩ ⟨31 / 4, false⟩ 8 1 =
      (31 / 4, 1) := by
    norm_num [VC.UpdateDrawRectangleDims, VC.CalculateDrawAspectRatio,
      VC.ApplyStandardAspectCrop, VC.auto_ne_stretch, VC.auto_ne_analogwide]
  have hceil : (⌈(31 / 4 : ℚ)⌉ : Int) = 8 := Int.ceil_eq_iff.mpr (by norm_num)
  have htmod : (8 : Int).tmod 4 = 0 := by decide
  refine ⟨by rw [hdims], ?_, by norm_num⟩
  simp only [VC.UpdateDrawRectangle, VC.Rect.GetWidth, hdims]
  rw [hceil]
  rw [htmod]
  omega

/-- C6 (amended): after scaling, each final draw dimension equals
`ceil(d) - ceil(d) % 4`: always a multiple of 4 and, when the unrounded
value `d` is positive, nonnegative and at most `ceil(d)` (it may exceed the
unrounded value `d` itself, by less than 1, when the ceiling lands on a
multiple of 4); the rectangle is centered within the backbuffer via
`round(win/2 - dim/2)` (round half away from zero). -/
theorem c6_round_to_multiple_of_4 (cfg : VC.VideoConfig) (env : VC.AspectEnv)
    (bb_w bb_h : Int) :
    4 ∣ (⌈(VC.UpdateDrawRectangleDims cfg env bb_w bb_h).1⌉ -
        (⌈(VC.UpdateDrawRectangleDims cfg env bb_w bb_h).1⌉).tmod 4) ∧
    4 ∣ (⌈(VC.UpdateDrawRectangleDims cfg env bb_w bb_h).2⌉ -
        (⌈(VC.UpdateDrawRectangleDims cfg env bb_w bb_h).2⌉).tmod 4) ∧
    (0 < (VC.UpdateDrawRectangleDims cfg env bb_w bb_h).1 →
      0 ≤ (⌈(VC.UpdateDrawRectangleDims cfg env bb_w bb_h).1⌉ -
          (⌈(VC.UpdateDrawRectangleDims cfg env bb_w bb_h).1⌉).tmod 4) ∧
      (⌈(VC.UpdateDrawRectangleDims cfg env bb_w bb_h).1⌉ -
          (⌈(VC.UpdateDrawRectangleDims cfg env bb_w bb_h).1⌉).tmod 4) ≤
        ⌈(VC.UpdateDrawRectangleDims cfg env bb_w bb_h).1⌉) ∧
    (0 < (VC.UpdateDrawRectangleDims cfg env bb_w bb_h).2 →
      0 ≤ (⌈(VC.UpdateDrawRectangleDims cfg env bb_w bb_h).2⌉ -
          (⌈(VC.UpdateDrawRectangleDims cfg env bb_w bb_h).2⌉).tmod 4) ∧
      (⌈(VC.UpdateDrawRectangleDims cfg env bb_w bb_h).2⌉ -
          (⌈(VC.UpdateDrawRectangleDims cfg env bb_w bb_h).2⌉).tmod 4) ≤
        ⌈(VC.UpdateDrawRectangleDims cfg env bb_w bb_h).2⌉) ∧
    VC.UpdateDrawRectangle cfg env bb_w bb_h =
      ⟨VC.roundNearest ((bb_w : ℚ) / 2 -
          ((⌈(VC.UpdateDrawRectangleDims cfg env bb_w bb_h).1⌉ -
            (⌈(VC.UpdateDrawRectangleDims cfg env bb_w bb_h).1⌉).tmod 4 : Int) : ℚ) / 2),
       VC.roundNearest ((bb_h : ℚ) / 2 -
          ((⌈(VC.UpdateDrawRectangleDims cfg env bb_w bb_h).2⌉ -
            (⌈(VC.UpdateDrawRectangleDims cfg env bb_w bb_h).2⌉).tmod 4 : Int) : ℚ) / 2),
       VC.roundNearest ((bb_w : ℚ) / 2 -
          ((⌈(VC.UpdateDrawRectangleDims cfg env bb_w bb_h).1⌉ -
            (⌈(VC.UpdateDrawRectangleDims cfg env bb_w bb_h).1⌉).tmod 4 : Int) : ℚ) / 2) +
         (⌈(VC.UpdateDrawRectangleDims cfg env bb_w bb_h).1⌉ -
          (⌈(VC.UpdateDrawRectangleDims cfg env bb_w bb_h).1⌉).tmod 4),
       VC.roundNearest ((bb_h : ℚ) / 2 -
          ((⌈(VC.UpdateDrawRectangleDims cfg env bb_w bb_h).2⌉ -
            (⌈(VC.UpdateDrawRectangleDims cfg env bb_w bb_h).2⌉).tmod 4 : Int) : ℚ) / 2) +
         (⌈(VC.UpdateDrawRectangleDims cfg env bb_w bb_h).2⌉ -
          (⌈(VC.UpdateDrawRectangleDims cfg env bb_w bb_h).2⌉).tmod 4)⟩ := by
  refine ⟨VC.roundDown4_dvd _, VC.roundDown4_dvd _, ?_, ?_, rfl⟩
  · intro hpos
    have hc : (0 : Int) ≤ ⌈(VC.UpdateDrawRectangleDims cfg env bb_w bb_h).1⌉ :=
      le_of_lt (Int.ceil_pos.mpr hpos)
    exact ⟨VC.roundDown4_nonneg hc, VC.roundDown4_le hc⟩
  · intro hpos
    have hc : (0 : Int) ≤ ⌈(VC.UpdateDrawRectangleDims cfg env bb_w bb_h).2⌉ :=
      le_of_lt (Int.ceil_pos.mpr hpos)
    exact ⟨VC.roundDown4_nonneg hc, VC.roundDown4_le hc⟩

/-- C6 witness: the rounding bounds instantiated at source aspect 4/3 and a
640x480 backbuffer, where the pre-rounding draw width is 640. -/
theorem c6_round_to_multiple_of_4_witness :
    0 ≤ (⌈(VC.UpdateDrawRectangleDims ⟨VC.AspectMode.Auto, false, VC.StereoMode.Off, false⟩
        ⟨4 / 3, false⟩ 640 480).1⌉ -
      (⌈(VC.UpdateDrawRectangleDims ⟨VC.AspectMode.Auto, false, VC.StereoMode.Off, false⟩
        ⟨4 / 3, false⟩ 640 480).1⌉).tmod 4) ∧
    (⌈(VC.UpdateDrawRectangleDims ⟨VC.AspectMode.Auto, false, VC.StereoMode.Off, false⟩
        ⟨4 / 3, false⟩ 640 480).1⌉ -
      (⌈(VC.UpdateDrawRectangleDims ⟨VC.AspectMode.Auto, false, VC.StereoMode.Off, false⟩
        ⟨4 / 3, false⟩ 640 480).1⌉).tmod 4) ≤
      ⌈(VC.UpdateDrawRectangleDims ⟨VC.AspectMode.Auto, false, VC.StereoMode.Off, false⟩
        ⟨4 / 3, false⟩ 640 480).1⌉ := by
  have hdims : VC.UpdateDrawRectangleDims
      ⟨VC.AspectMode.Auto, false, VC.StereoMode.Off, false⟩ ⟨4 / 3, false⟩ 640 480 =
      (640, 480) := by
    norm_num [VC.UpdateDrawRectangleDims, VC.CalculateDrawAspectRatio,
      VC.ApplyStandardAspectCrop, VC.auto_ne_stretch, VC.auto_ne_analogwide]
  exact (c6_round_to_multiple_of_4 ⟨VC.AspectMode.Auto, false, VC.StereoMode.Off, false⟩
    ⟨4 / 3, false⟩ 640 480).2.2.1 (by rw [hdims]; norm_num)

/-- C7 counterexample: a never-drawn message with `duration = 1000` created at
time 0 has elapsed time 5000 ≥ 5000 ms at the `DrawMessages` call, yet the
call keeps it (the code only drops an undrawn message once it is
`MESSAGE_DROP_TIME` past its own expiry, i.e. elapsed ≥ duration + 5000). -/
theorem c7_removal_at_5000_counterexample :
    (⟨"m", 0, 1000, false, 0⟩ : OSD.Message).ever_drawn = false ∧
    (⟨"m", 0, 1000, false, 0⟩ : OSD.Message).elapsedMs 5000 = 5000 ∧
    OSD.drawMessages false 5000
        [(OSD.MessageType.Typeless, ⟨"m", 0, 1000, false, 0⟩)] =
      [(OSD.MessageType.Typeless, ⟨"m", 0, 1000, false, 0⟩)] := by
  refine ⟨rfl, rfl, ?_⟩
  decide

/-- C7 (amended): a message that has never been drawn is removed by
`DrawMessages` exactly when the elapsed time since its creation is at least
`duration_ms + 5000` ms (its duration plus the drop threshold), not 5000 ms
flat. -/
theorem c7_never_drawn_removed_iff_stale (flag : Bool) (now : Nat)
    (s : OSD.MessageMap) (h : ∀ p ∈ s, p.2.ever_drawn = false) :
    OSD.drawMessages flag now s =
      (s.filter fun p =>
          decide (now - p.2.created < p.2.duration + 5000)).map
        (fun p => (p.1, if flag then OSD.markDrawn p.2 else p.2)) := by
  induction s with
  | nil => rfl
  | cons hd tl ih =>
    obtain ⟨t, m⟩ := hd
    have hm : m.ever_drawn = false := h (t, m) (by simp)
    have htl : ∀ p ∈ tl, p.2.ever_drawn = false := fun p hp => h p (by simp [hp])
    have hcond : OSD.removeCond m now = true ↔
        ¬(now - m.created < m.duration + 5000) := by
      rw [OSD.removeCond_iff]
      simp only [OSD.Message.timeRemaining, OSD.Message.elapsedMs,
        OSD.MESSAGE_DROP_TIME, hm, Bool.false_eq_true, false_or]
      omega
    by_cases hr : OSD.removeCond m now = true
    · simp only [OSD.drawMessages, hr, if_true, List.filter_cons,
        decide_eq_false (hcond.mp hr), Bool.false_eq_true, if_false, ih htl]
    · have hlt : now - m.created < m.duration + 5000 := by
        by_contra hn
        exact hr (hcond.mpr hn)
      simp only [OSD.drawMessages, hr, if_false, Bool.false_eq_true,
        List.filter_cons, decide_eq_true hlt, if_true, List.map_cons, ih htl]

/-- C7 witness: the amended removal rule evaluated on a concrete singleton
state (message of duration 100 created at 0, draw call at 6000). -/
theorem c7_never_drawn_removed_iff_stale_witness :
    OSD.drawMessages false 6000
        [(OSD.MessageType.Typeless, ⟨"w", 0, 100, false, 0⟩)] =
      ([(OSD.MessageType.Typeless, (⟨"w", 0, 100, false, 0⟩ : OSD.Message))].filter
          (fun p => decide (6000 - p.2.created < p.2.duration + 5000))).map
        (fun p => (p.1, if false then OSD.markDrawn p.2 else p.2)) :=
  c7_never_drawn_removed_iff_stale false 6000 _
    (by
      intro p hp
      rw [List.mem_singleton] at hp
      subst hp
      rfl)

/-- C8 counterexample: a message added with `duration_ms = 0` at time 0 is
removed by a `DrawMessages` call at time 5000 made with the OSD flag off,
having never been rendered (`ever_drawn` still false). -/
theorem c8_drawn_before_removal_counterexample :
    OSD.addMessage "m" 0 0 0 [] =
      [(OSD.MessageType.Typeless, ⟨"m", 0, 0, false, 0⟩)] ∧
    (⟨"m", 0, 0, false, 0⟩ : OSD.Message).ever_drawn = false ∧
    OSD.drawMessages false 5000
        [(OSD.MessageType.Typeless, ⟨"m", 0, 0, false, 0⟩)] = [] := by
  refine ⟨rfl, rfl, ?_⟩
  decide

/-- C8 (amended): a message with `duration_ms = 0` survives every
`DrawMessages` call made while it is still undrawn and less than 5000 ms
old (and is rendered, hence marked drawn, by such a call when the OSD flag
is on); it can only be dropped undrawn once 5000 ms have elapsed or after
it has been rendered. -/
theorem c8_zero_duration_survives_grace (t : OSD.MessageType)
    (m : OSD.Message) (flag : Bool) (now : Nat) (s : OSD.MessageMap)
    (hdur : m.duration = 0) (hdrawn : m.ever_drawn = false)
    (hnow : now - m.created < 5000) (hmem : (t, m) ∈ s) :
    (t, if flag then OSD.markDrawn m else m) ∈ OSD.drawMessages flag now s := by
  induction s with
  | nil => simp at hmem
  | cons hd tl ih =>
    obtain ⟨t', m'⟩ := hd
    rcases List.mem_cons.mp hmem with heq | hmemtl
    · obtain ⟨rfl, rfl⟩ := Prod.mk.injEq .. ▸ heq
      have hrc : OSD.removeCond m now = false := by
        rw [Bool.eq_false_iff]
        intro hr
        rw [OSD.removeCond_iff] at hr
        simp only [OSD.Message.timeRemaining, OSD.Message.elapsedMs,
          OSD.MESSAGE_DROP_TIME, hdrawn, hdur, Bool.false_eq_true, false_or] at hr
        omega
      simp [OSD.drawMessages, hrc]
    · by_cases hrc : OSD.removeCond m' now = true <;>
        simp [OSD.drawMessages, hrc, ih hmemtl]

/-- C8 witness: the survival property applied to a concrete duration-0
message at a draw call 100 ms after creation with the OSD flag on. -/
theorem c8_zero_duration_survives_grace_witness :
    (OSD.MessageType.Typeless,
        OSD.markDrawn ⟨"m", 0, 0, false, 0⟩) ∈
      OSD.drawMessages true 100
        [(OSD.MessageType.Typeless, ⟨"m", 0, 0, false, 0⟩)] := by
  have := c8_zero_duration_survives_grace OSD.MessageType.Typeless
    ⟨"m", 0, 0, false, 0⟩ true 100
    [(OSD.MessageType.Typeless, ⟨"m", 0, 0, false, 0⟩)]
    rfl rfl (by norm_num) (by simp)
  simpa using this

/-- C9: the alpha applied when rendering a message is
`clamp(time_left / fade_window, 0, 1)` with
`fade_window = max(min(1000 ms, duration), 1 ms)`, except that a message
which has never been drawn before is rendered fully opaque. -/
theorem c9_alpha_fade_formula (m : OSD.Message) (time_left : Int) :
    (m.ever_drawn = true →
      OSD.appliedAlpha m time_left =
        OSD.clampQ ((time_left : ℚ) / max (min 1000 (m.duration : ℚ)) 1) 0 1) ∧
    (m.ever_drawn = false → OSD.appliedAlpha m time_left = 1) := by
  constructor <;> intro h <;>
    simp [OSD.appliedAlpha, OSD.fadeTime, OSD.MESSAGE_FADE_TIME, h]

/-- C9 witness: the fade formula evaluated on a drawn message (duration
2000 ms, 500 ms left) and on an undrawn one. -/
theorem c9_alpha_fade_formula_witness :
    OSD.appliedAlpha ⟨"x", 0, 2000, true, 0⟩ 500 =
      OSD.clampQ ((500 : ℚ) / max (min 1000 ((2000 : Nat) : ℚ)) 1) 0 1 ∧
    OSD.appliedAlpha ⟨"y", 0, 2000, false, 0⟩ 500 = 1 :=
  ⟨(c9_alpha_fade_formula ⟨"x", 0, 2000, true, 0⟩ 500).1 rfl,
   (c9_alpha_fade_formula ⟨"y", 0, 2000, false, 0⟩ 500).2 rfl⟩

/-- C10: with the OSD-messages flag disabled, `DrawMessages` still removes
expired messages by the normal removal rule but mutates no survivor (no
`ever_drawn` flag is set, nothing is rendered); consequently a message that
was never drawn is gone after any call made once its duration plus the
5000 ms drop threshold has elapsed. -/
theorem c10_flag_disabled_still_expires (now : Nat) (s : OSD.MessageMap) :
    OSD.drawMessages false now s =
      s.filter (fun p => !OSD.removeCond p.2 now) ∧
    ∀ p ∈ s, p.2.ever_drawn = false →
      p.2.created + p.2.duration + 5000 ≤ now →
      p ∉ OSD.drawMessages false now s := by
  have hfil : OSD.drawMessages false now s =
      s.filter (fun p => !OSD.removeCond p.2 now) := by
    induction s with
    | nil => rfl
    | cons hd tl ih =>
      obtain ⟨t, m⟩ := hd
      by_cases h : OSD.removeCond m now = true <;>
        simp [OSD.drawMessages, h, List.filter_cons, ih]
  refine ⟨hfil, ?_⟩
  intro p hp hdrawn hstale
  rw [hfil]
  intro hmem
  have hkeep := List.of_mem_filter hmem
  have hrc : OSD.removeCond p.2 now = true := by
    rw [OSD.removeCond_iff]
    simp only [OSD.Message.timeRemaining, OSD.Message.elapsedMs,
      OSD.MESSAGE_DROP_TIME, hdrawn, Bool.false_eq_true, false_or]
    omega
  simp [hrc] at hkeep

/-- C10 witness: a concrete stale undrawn message (created at 0, duration
0) is absent from the state after a flag-off `DrawMessages` call at 6000. -/
theorem c10_flag_disabled_still_expires_witness :
    (OSD.MessageType.Typeless, (⟨"m", 0, 0, false, 0⟩ : OSD.Message)) ∉
      OSD.drawMessages false 6000
        [(OSD.MessageType.Typeless, ⟨"m", 0, 0, false, 0⟩)] :=
  (c10_flag_disabled_still_expires 6000
      [(OSD.MessageType.Typeless, ⟨"m", 0, 0, false, 0⟩)]).2
    (OSD.MessageType.Typeless, ⟨"m", 0, 0, false, 0⟩)
    (by simp) rfl (by norm_num)

end Spec2Proof
